import Mathlib

/-!
Verification of the CompileDaemon build-debounce scheduler and process
supervisor (src/daemon.go, src/process_posix.go, src/process_windows.go).

The development shallowly embeds the three core components of the daemon:

* the debounce scheduler `builder` (daemon.go 397-414), modelled as a
  function over a timed trace of change events;
* the build executor `build` (daemon.go 358-388), modelled over the
  outcome of the external build command;
* the process supervisor `runner` (daemon.go 474-526) together with the
  termination helpers `killProcessHard` (daemon.go 536-546) and
  `killProcessGracefully` (daemon.go 548-570), modelled as a state machine
  over build cycles, with the Go `os.Process` handle semantics (Kill, Wait,
  Signal) made explicit.

Times are naturals counting milliseconds from daemon startup, except for the
graceful-kill timeout where the unit is irrelevant to the statements.
-/

set_option autoImplicit false

namespace CompileDaemon

/-- Milliseconds to wait for the next job after a file change
(daemon.go 294: `const WorkDelay = 900`). -/
def WorkDelay : Nat := 900

/-- Default of the `-graceful-timeout` flag in seconds (daemon.go 332). -/
def defaultGracefulTimeout : Nat := 3

/-! ### Debounce scheduler (`builder`, daemon.go 397-414) -/

/-- One filesystem change notification delivered on the `jobs` channel:
the arrival time and the path carried by the event. -/
structure ChangeEvent where
  time : Nat
  path : String
deriving DecidableEq

/-- One completed build cycle as observed downstream of `builder`: the
instant the threshold fired, the `eventPath` sent on `buildStarted`, and
the result of `build()` sent on `buildDone`. -/
structure BuildCycle where
  fireTime : Nat
  path : String
  success : Bool
deriving DecidableEq

/-- Result oracle for the external build command: the value `build()` returns
for a cycle fired at the given time. -/
def alwaysOk : Nat → Bool := fun _ => true

/-- Oracle under which every build fails. -/
def alwaysBad : Nat → Bool := fun _ => false

/-- Threshold state of `builder` at startup (daemon.go 402:
`threshold := createThreshold()`): armed to fire `WorkDelay` after start.
`none` models a fired, hence exhausted, `time.After` channel. -/
def builderInitThreshold : Option Nat := some WorkDelay

/-- `eventPath` of `builder` at startup (daemon.go 403: `eventPath := ""`). -/
def builderInitPath : String := ""

/-- The `builder` select loop (daemon.go 405-413) run over a time-sorted
trace of change events, returning every build cycle the loop ever emits.

State: `th` is the pending threshold deadline (`none` once the
`time.After` channel has delivered, since the loop never re-creates it in
the threshold branch), `p` is the current `eventPath`. A pending event is
consumed before the threshold fires exactly when it arrives strictly
earlier than the deadline; an iteration whose exhausted threshold can
never fire again is fused with the receipt of the next job, which is the
only remaining enabled select branch. With no events left, an armed
threshold fires exactly once and the loop then blocks forever on `jobs`. -/
def builderRun (b : Nat → Bool) : Option Nat → String → List ChangeEvent → List BuildCycle
  | none, _, [] => []
  | some d, p, [] => [⟨d, p, b d⟩]
  | none, _, e :: rest => builderRun b (some (e.time + WorkDelay)) e.path rest
  | some d, p, e :: rest =>
      if e.time < d then builderRun b (some (e.time + WorkDelay)) e.path rest
      else ⟨d, p, b d⟩ :: builderRun b (some (e.time + WorkDelay)) e.path rest

/-- Modelled from the spec, for comparison with `builderRun` only (this is
not code of the repository): section 4.1 prescribes "Re-arm the timer for
the next cycle immediately after" each firing. This variant therefore arms
a fresh threshold after every build cycle; since such a loop fires forever,
`fuel` bounds the number of steps simulated. -/
def builderRunRearmSpec (b : Nat → Bool) : Nat → Nat → String → List ChangeEvent → List BuildCycle
  | 0, _, _, _ => []
  | fuel + 1, d, p, [] => ⟨d, p, b d⟩ :: builderRunRearmSpec b fuel (d + WorkDelay) p []
  | fuel + 1, d, p, e :: rest =>
      if e.time < d then builderRunRearmSpec b fuel (e.time + WorkDelay) e.path rest
      else ⟨d, p, b d⟩ :: builderRunRearmSpec b fuel (d + WorkDelay) p (e :: rest)

/-- A burst: consecutive events are time-sorted and each arrives strictly
less than `WorkDelay` after its predecessor. -/
def burstTrace : List ChangeEvent → Bool
  | e :: e2 :: rest =>
      decide (e.time ≤ e2.time) && (decide (e2.time < e.time + WorkDelay) && burstTrace (e2 :: rest))
  | _ => true

/-- Last event of a trace (default value for the empty trace). -/
def lastEvent : List ChangeEvent → ChangeEvent
  | [] => ⟨0, ""⟩
  | [e] => e
  | _ :: e2 :: rest => lastEvent (e2 :: rest)

/-- Projection of a build cycle to its observable trigger data, forgetting
the build result. -/
def timePath (c : BuildCycle) : Nat × String := (c.fireTime, c.path)

/-! ### Build executor (`build`, daemon.go 358-388) -/

/-- Result of running the external build command via `cmd.CombinedOutput()`:
either the command ran and exited with the given status code, or it could
not be started at all. -/
inductive ExecOutcome where
  | exited (code : Nat)
  | startFailure
deriving DecidableEq

/-- Log line printed before the build command runs (daemon.go 363). -/
def msgRunningBuild : String := "Running build command!"

/-- Log line printed on a successful build (daemon.go 382). -/
def msgBuildOk : String := "Build ok."

/-- Log line printed on a failed build (daemon.go 384); `log.Println` joins
its two operands with a space, so the captured combined output follows the
fixed message. -/
def msgBuildErr (output : String) : String := "Error while building:\n " ++ output

/-- The `build` function (daemon.go 358-388). Returns the boolean result
`err == nil` together with the log lines written. `noBuild` is the
`-no-build` flag (daemon.go 359-361), `buildArgs` the split `-build` flag
(daemon.go 365-369), `res` the outcome of the spawned command and `output`
its captured combined output. `CombinedOutput` yields a nil error exactly
when the command started and exited with status 0. -/
def build (noBuild : Bool) (buildArgs : List String) (res : ExecOutcome) (output : String) :
    Bool × List String :=
  if noBuild then (true, [])
  else if buildArgs.length = 0 then (true, [])
  else
    match res with
    | ExecOutcome.exited 0 => (true, [msgRunningBuild, msgBuildOk])
    | _ => (false, [msgRunningBuild, msgBuildErr output])

/-- Default value of the `-build` flag, split on spaces (daemon.go 325, 365). -/
def goBuild : List String := ["go", "build"]

/-! ### Process handles: Go `os.Process` semantics -/

/-- Status of the operating-system process behind an `*os.Process` handle:
still running; exited but not yet waited for (a zombie still owned by the
daemon); or already reaped by a successful `Wait`. -/
inductive ProcStatus where
  | running
  | exited
  | reaped
deriving DecidableEq

/-- Models `os.Process.Kill` (used by `killProcessHard`, daemon.go 539):
sending SIGKILL succeeds for a running process and also for an exited but
unreaped one; once the handle has been released by a successful `Wait`,
Go returns `ErrProcessDone`. Result: new status and whether an error was
returned. -/
def procKill : ProcStatus → ProcStatus × Bool
  | ProcStatus.running => (ProcStatus.exited, false)
  | ProcStatus.exited => (ProcStatus.exited, false)
  | ProcStatus.reaped => (ProcStatus.reaped, true)

/-- Models `os.Process.Wait` (daemon.go 543, 556): waits until the process
exits and reaps it, succeeding at most once per handle; a second `Wait`
fails (`waitid` reports no such child). Result: new status and whether an
error was returned. -/
def procWait : ProcStatus → ProcStatus × Bool
  | ProcStatus.running => (ProcStatus.reaped, false)
  | ProcStatus.exited => (ProcStatus.reaped, false)
  | ProcStatus.reaped => (ProcStatus.reaped, true)

/-- `killProcessHard` (daemon.go 536-546): `Kill`, whose failure is only a
logged warning, then `Wait`, whose failure is `log.Fatal`. Returns the
final handle status and whether the daemon aborts fatally. -/
def killProcessHard (st : ProcStatus) : ProcStatus × Bool :=
  let k := procKill st
  let w := procWait k.1
  (w.1, w.2)

/-- `terminateGracefully` (process_posix.go 16-18): `process.Signal(SIGTERM)`.
Returns whether the call errors; Go returns `ErrProcessDone` exactly when
the handle has already been reaped, while signalling a running process or
an unreaped zombie succeeds. -/
def terminateGracefully : ProcStatus → Bool
  | ProcStatus.reaped => true
  | _ => false

/-- Overall outcome of `killProcessGracefully`. -/
inductive GracefulOutcome where
  | gracefulOk
  | fatalAbort
  | escalatedOk
  | escalatedFatal
deriving DecidableEq

/-- The goroutine body of `killProcessGracefully` (daemon.go 550-558): send
SIGTERM, then `Wait`; the channel `done` receives the SIGTERM error at once
if signalling fails, otherwise the `Wait` result when the child exits.
`exitResponse` gives the instant, measured from the SIGTERM in the same
unit as the timeout, at which the child exits (`none`: it ignores SIGTERM
and never exits by itself). Result: the delivery time of `done` and whether
the delivered error is non-nil, or `none` if `done` never fires. -/
def gracefulDone (st : ProcStatus) (exitResponse : Option Nat) : Option (Nat × Bool) :=
  if terminateGracefully st then some (0, true)
  else
    match st, exitResponse with
    | ProcStatus.exited, _ => some (0, false)
    | _, some t => some (t, false)
    | _, none => none

/-- `killProcessGracefully` (daemon.go 548-570): race `done` against
`time.After(timeout)`. If `done` wins with a nil error the stop is
complete; with a non-nil error the daemon aborts (`log.Fatal`). If the
timeout elapses first, escalate to `killProcessHard` and afterwards drain
`done`; the escalation is fatal exactly when the hard kill is. -/
def killProcessGracefully (timeout : Nat) (st : ProcStatus) (exitResponse : Option Nat) :
    GracefulOutcome :=
  match gracefulDone st exitResponse with
  | some (t, isErr) =>
      if t < timeout then
        if isErr then GracefulOutcome.fatalAbort else GracefulOutcome.gracefulOk
      else if (killProcessHard st).2 then GracefulOutcome.escalatedFatal
      else GracefulOutcome.escalatedOk
  | none =>
      if (killProcessHard st).2 then GracefulOutcome.escalatedFatal
      else GracefulOutcome.escalatedOk

/-! ### Process supervisor (`runner`, daemon.go 474-526) -/

/-- An `*os.Process` handle as held in `currentProcess`: the process id and
the status of the underlying OS process. -/
structure ProcHandle where
  pid : Nat
  status : ProcStatus
deriving DecidableEq

/-- Observable events in the history of the runner loop. `killWaited p` is a
confirmed termination of process `p`: `killProcessHard` signalled it and its
`Wait` succeeded. `started p` is a successful `cmd.Start()` whose process
became `currentProcess`. `fatalStop` is a `log.Fatal`, aborting the daemon. -/
inductive RunnerEvent where
  | started (pid : Nat)
  | killWaited (pid : Nat)
  | fatalStop
deriving DecidableEq

/-- One build cycle as consumed by the runner: the path received from
`buildStarted`, the flag received from `buildSuccess`, and whether
`startCommand` would fail for this cycle (daemon.go 515-519). -/
structure CycleInput where
  eventPath : String
  success : Bool
  startErr : Bool
deriving DecidableEq

/-- Runner-loop state: the `currentProcess` handle (nil before the first
successful start and never reset to nil afterwards, daemon.go 475, 524)
plus a supply of fresh process ids for newly started commands. -/
structure RunnerState where
  current : Option ProcHandle
  nextPid : Nat
deriving DecidableEq

/-- Runner state before the first build cycle (daemon.go 475:
`var currentProcess *os.Process`). -/
def runnerInit : RunnerState := ⟨none, 0⟩

/-- Tail of one runner iteration after the kill decision (daemon.go
507-524): in `-command-stop` mode wait for the build result and give up on
failure; otherwise start the command, which on error is `log.Fatal` and on
success installs the new process as `currentProcess`. `evs` are the events
already produced earlier in this iteration. Result: new state, events of
the iteration, and whether the daemon aborted. -/
def runnerRestart (commandStop : Bool) (s : RunnerState) (c : CycleInput)
    (evs : List RunnerEvent) : RunnerState × List RunnerEvent × Bool :=
  if commandStop && !c.success then (s, evs, false)
  else if c.startErr then (s, evs ++ [RunnerEvent.fatalStop], true)
  else (⟨some ⟨s.nextPid, ProcStatus.running⟩, s.nextPid + 1⟩,
        evs ++ [RunnerEvent.started s.nextPid], false)

/-- One iteration of the runner loop (daemon.go 491-525), driven by one
build cycle. Without `-command-stop` (the default, stop-after-build) a
failed build short-circuits the iteration before anything is touched
(daemon.go 498-502). Otherwise, a non-nil `currentProcess` is killed via
`killProcessHard` (the `-graceful-kill` flag is off), which either aborts
the daemon or leaves the handle reaped, and the iteration continues with
`runnerRestart`. -/
def runnerCycle (commandStop : Bool) (s : RunnerState) (c : CycleInput) :
    RunnerState × List RunnerEvent × Bool :=
  if !commandStop && !c.success then (s, [], false)
  else
    match s.current with
    | none => runnerRestart commandStop s c []
    | some h =>
        match killProcessHard h.status with
        | (_, true) => (s, [RunnerEvent.fatalStop], true)
        | (st, false) =>
            runnerRestart commandStop ⟨some ⟨h.pid, st⟩, s.nextPid⟩ c
              [RunnerEvent.killWaited h.pid]

/-- The runner loop over a sequence of build cycles, collecting the event
history; a fatal iteration ends the history (the daemon exits). -/
def runnerRun (commandStop : Bool) : RunnerState → List CycleInput → List RunnerEvent
  | _, [] => []
  | s, c :: rest =>
      let r := runnerCycle commandStop s c
      if r.2.2 then r.2.1 else r.2.1 ++ runnerRun commandStop r.1 rest

/-- Checker for the single-process invariant over a runner history.
`pend = some q` records that process `q` was started and its termination
has not been confirmed yet; a second start in that situation violates the
invariant, and only a confirmed termination of `q` itself clears it. -/
def startsSeparated : Option Nat → List RunnerEvent → Bool
  | _, [] => true
  | some _, RunnerEvent.started _ :: _ => false
  | none, RunnerEvent.started q :: rest => startsSeparated (some q) rest
  | some q, RunnerEvent.killWaited p :: rest =>
      startsSeparated (if p = q then none else some q) rest
  | none, RunnerEvent.killWaited _ :: rest => startsSeparated none rest
  | pend, RunnerEvent.fatalStop :: rest => startsSeparated pend rest

/-- The pending-start obligation corresponding to a runner state: the pid of
the current handle when its process is still running, nothing otherwise. -/
def pendingOf (s : RunnerState) : Option Nat :=
  match s.current with
  | some h => if h.status = ProcStatus.running then some h.pid else none
  | none => none

/-! ### Startup checks (`main`, daemon.go 579-597) and platform capability -/

/-- Platforms distinguished by the build-tagged process files. -/
inductive Platform where
  | posix
  | windows
deriving DecidableEq

/-- `gracefulTerminationPossible`: returns true on the POSIX platforms
(process_posix.go 20-22) and false on Windows (process_windows.go 12-14). -/
def gracefulTerminationPossible : Platform → Bool
  | Platform.posix => true
  | Platform.windows => false

/-- Result of the daemon startup phase. -/
inductive StartupResult where
  | fatalExit
  | enterRunLoop
deriving DecidableEq

/-- Startup checks of `main` preceding the watch loop: an empty `-directory`
exits with status 1 (daemon.go 590-593) and `-graceful-kill` without
platform support is `log.Fatal` (daemon.go 595-597); both terminate with a
non-zero status before the run loop. The remaining setup (watcher
creation, directory walk) is abstracted as succeeding. -/
def mainStartup (plat : Platform) (directory : String) (gracefulKill : Bool) : StartupResult :=
  if directory = "" then StartupResult.fatalExit
  else if gracefulKill && !gracefulTerminationPossible plat then StartupResult.fatalExit
  else StartupResult.enterRunLoop

/-! ### Lemmas about the debounce scheduler -/

/-- Running the builder on a burst whose threshold was armed by its first
event produces exactly the one cycle fired `WorkDelay` after the last
event, carrying the path of the last event. -/
theorem builderRun_burst (b : Nat → Bool) :
    ∀ (rest : List ChangeEvent) (e : ChangeEvent), burstTrace (e :: rest) = true →
      builderRun b (some (e.time + WorkDelay)) e.path rest
        = [⟨(lastEvent (e :: rest)).time + WorkDelay, (lastEvent (e :: rest)).path,
            b ((lastEvent (e :: rest)).time + WorkDelay)⟩] := by
  intro rest
  induction rest with
  | nil => intro e _; rfl
  | cons e2 rest2 ih =>
      intro e hb
      simp only [burstTrace, Bool.and_eq_true, decide_eq_true_eq] at hb
      obtain ⟨h1, h2, h3⟩ := hb
      have hstep : builderRun b (some (e.time + WorkDelay)) e.path (e2 :: rest2)
          = builderRun b (some (e2.time + WorkDelay)) e2.path rest2 := by
        simp [builderRun, h2]
      rw [hstep]
      have hlast : lastEvent (e :: e2 :: rest2) = lastEvent (e2 :: rest2) := rfl
      rw [hlast]
      exact ih e2 h3

/-- Along a burst, the last event is not earlier than the first. -/
theorem lastEvent_time_ge :
    ∀ (rest : List ChangeEvent) (e : ChangeEvent), burstTrace (e :: rest) = true →
      e.time ≤ (lastEvent (e :: rest)).time := by
  intro rest
  induction rest with
  | nil => intro e _; exact Nat.le_refl _
  | cons e2 rest2 ih =>
      intro e hb
      simp only [burstTrace, Bool.and_eq_true, decide_eq_true_eq] at hb
      obtain ⟨h1, h2, h3⟩ := hb
      have hlast : lastEvent (e :: e2 :: rest2) = lastEvent (e2 :: rest2) := rfl
      rw [hlast]
      exact Nat.le_trans h1 (ih e2 h3)

/-- The number of cycles a builder run emits is bounded by the number of
change events plus one for an initially armed threshold: every firing
consumes an arming, and only an arriving event arms a new threshold. -/
theorem builderRun_length (b : Nat → Bool) :
    ∀ (es : List ChangeEvent) (d : Nat) (p : String),
      (builderRun b (some d) p es).length ≤ es.length + 1
      ∧ (builderRun b none p es).length ≤ es.length := by
  intro es
  induction es with
  | nil =>
      intro d p
      exact ⟨by simp [builderRun], by simp [builderRun]⟩
  | cons e rest ih =>
      intro d p
      constructor
      · by_cases h : e.time < d
        · have := (ih (e.time + WorkDelay) e.path).1
          simp only [builderRun, if_pos h, List.length_cons]
          omega
        · have := (ih (e.time + WorkDelay) e.path).1
          simp only [builderRun, if_neg h, List.length_cons]
          omega
      · have := (ih (e.time + WorkDelay) e.path).1
        simp only [builderRun, List.length_cons]
        omega

/-- Build outcomes never influence which cycles the scheduler fires: the
trigger instants and paths of a run are the same under any two build
result oracles. -/
theorem builderRun_outcome_independent (b1 b2 : Nat → Bool) :
    ∀ (es : List ChangeEvent) (th : Option Nat) (p : String),
      (builderRun b1 th p es).map timePath = (builderRun b2 th p es).map timePath := by
  intro es
  induction es with
  | nil =>
      intro th p
      cases th with
      | none => rfl
      | some d => rfl
  | cons e rest ih =>
      intro th p
      cases th with
      | none => exact ih (some (e.time + WorkDelay)) e.path
      | some d =>
          by_cases h : e.time < d
          · simp only [builderRun, if_pos h]
            exact ih (some (e.time + WorkDelay)) e.path
          · simp only [builderRun, if_neg h, List.map_cons]
            rw [ih (some (e.time + WorkDelay)) e.path]
            rfl

/-! ### Claim theorems: debounce scheduler -/

/-- Claim C2: for every burst of at least one change event, with each event
arriving strictly less than `WorkDelay` after its predecessor, exactly one
build cycle fires after the last event, namely `WorkDelay` later, and its
notification carries the path of the last event of the burst. (An initial
startup cycle, when the first event arrives later than `WorkDelay`, fires
no later than the first event and is excluded by the time filter.) -/
theorem burst_single_cycle (b : Nat → Bool) (es : List ChangeEvent)
    (hne : es ≠ []) (hburst : burstTrace es = true) :
    (builderRun b builderInitThreshold builderInitPath es).filter
        (fun c => decide ((lastEvent es).time < c.fireTime))
      = [⟨(lastEvent es).time + WorkDelay, (lastEvent es).path,
          b ((lastEvent es).time + WorkDelay)⟩] := by
  match es, hne with
  | e :: rest, _ =>
    have hlast := lastEvent_time_ge rest e hburst
    have hfire := builderRun_burst b rest e hburst
    show (builderRun b (some WorkDelay) "" (e :: rest)).filter _ = _
    by_cases h : e.time < WorkDelay
    · have hstep : builderRun b (some WorkDelay) "" (e :: rest)
          = builderRun b (some (e.time + WorkDelay)) e.path rest := by
        simp [builderRun, h]
      rw [hstep, hfire]
      have hkeep : (lastEvent (e :: rest)).time < (lastEvent (e :: rest)).time + WorkDelay := by
        have : 0 < WorkDelay := by decide
        omega
      simp [hkeep]
    · have hstep : builderRun b (some WorkDelay) "" (e :: rest)
          = ⟨WorkDelay, "", b WorkDelay⟩ :: builderRun b (some (e.time + WorkDelay)) e.path rest := by
        simp [builderRun, h]
      rw [hstep, hfire]
      have hdrop : ¬ (lastEvent (e :: rest)).time < WorkDelay := by omega
      have hkeep : (lastEvent (e :: rest)).time < (lastEvent (e :: rest)).time + WorkDelay := by
        have : 0 < WorkDelay := by decide
        omega
      simp [hdrop, hkeep]

/-- Witness for C2: three events at 0, 100 and 200 milliseconds form a
burst; the run fires exactly one cycle after the last event, at 1100
milliseconds, carrying the path of the last event. -/
theorem burst_single_cycle_witness :
    (([⟨0, "a.go"⟩, ⟨100, "b.go"⟩, ⟨200, "c.go"⟩] : List ChangeEvent) ≠ []
      ∧ burstTrace [⟨0, "a.go"⟩, ⟨100, "b.go"⟩, ⟨200, "c.go"⟩] = true)
    ∧ (builderRun alwaysOk builderInitThreshold builderInitPath
          [⟨0, "a.go"⟩, ⟨100, "b.go"⟩, ⟨200, "c.go"⟩]).filter
        (fun c => decide ((lastEvent [⟨0, "a.go"⟩, ⟨100, "b.go"⟩, ⟨200, "c.go"⟩]).time < c.fireTime))
      = [⟨1100, "c.go", true⟩] :=
  ⟨⟨by decide, by decide⟩,
    burst_single_cycle alwaysOk [⟨0, "a.go"⟩, ⟨100, "b.go"⟩, ⟨200, "c.go"⟩]
      (by decide) (by decide)⟩

/-- Claim C8, counterexample: the source scheduler does not re-arm the
threshold after it fires. With no change event at all, the run contains
exactly the single startup cycle at 900 milliseconds and nothing afterwards,
whereas the loop prescribed by the spec (re-arm immediately after every
cycle, modelled by `builderRunRearmSpec`) fires again at 1800 milliseconds
without any event arriving. -/
theorem builder_no_rearm_cex :
    builderRun alwaysOk builderInitThreshold builderInitPath [] = [⟨900, "", true⟩]
    ∧ builderRunRearmSpec alwaysOk 2 WorkDelay builderInitPath []
      = [⟨900, "", true⟩, ⟨1800, "", true⟩] :=
  ⟨rfl, rfl⟩

/-- Claim C8, amended: after the threshold fires the exhausted timer channel
is never re-armed by the firing itself; only an arriving change event arms
a new threshold, so a run over k change events contains at most k + 1 build
cycles (at most k of them triggered by events), and a run whose threshold is
already exhausted emits nothing once no event remains. -/
theorem builder_rearm_only_on_event (b : Nat → Bool) (es : List ChangeEvent) (d : Nat)
    (p q : String) :
    (builderRun b (some d) p es).length ≤ es.length + 1
    ∧ builderRun b none q [] = [] :=
  ⟨(builderRun_length b es d p).1, rfl⟩

/-- Claim C10: the threshold is armed at startup, before any change event;
with no event ever delivered, exactly one initial build cycle fires, at
`WorkDelay` after startup, and its notification carries the empty path. -/
theorem initial_build_cycle (b : Nat → Bool) :
    builderRun b builderInitThreshold builderInitPath []
      = [⟨WorkDelay, "", b WorkDelay⟩] := rfl

/-! ### Claim theorems: build executor and termination strategy -/

/-- Claim C7: with the default build command configured, `build` returns
true exactly when the command exits with status 0; any non-zero exit or a
start failure returns false and logs the captured combined output after the
fixed error message; and build outcomes never influence which cycles the
scheduler fires, so a failed build leaves the watch loop running. -/
theorem build_success_iff (resA resF : ExecOutcome) (outA outF : String)
    (b1 b2 : Nat → Bool) (th : Option Nat) (p : String) (es : List ChangeEvent)
    (hfail : resF ≠ ExecOutcome.exited 0) :
    ((build false goBuild resA outA).1 = true ↔ resA = ExecOutcome.exited 0)
    ∧ build false goBuild resF outF = (false, [msgRunningBuild, msgBuildErr outF])
    ∧ (builderRun b1 th p es).map timePath = (builderRun b2 th p es).map timePath := by
  refine ⟨?_, ?_, builderRun_outcome_independent b1 b2 es th p⟩
  · cases resA with
    | exited c =>
        cases c with
        | zero => simp [build, goBuild]
        | succ c2 => simp [build, goBuild]
    | startFailure => simp [build, goBuild]
  · cases resF with
    | exited c =>
        cases c with
        | zero => exact absurd rfl hfail
        | succ c2 => rfl
    | startFailure => rfl

/-- Witness for C7: a build command that exits with status 2 yields false
and logs the output; a start failure yields false with the logged output;
the scheduler fires the same cycle under an all-success and an all-failure
build oracle. -/
theorem build_success_iff_witness :
    ((ExecOutcome.startFailure : ExecOutcome) ≠ ExecOutcome.exited 0)
    ∧ (((build false goBuild (ExecOutcome.exited 2) "o").1 = true
          ↔ (ExecOutcome.exited 2 : ExecOutcome) = ExecOutcome.exited 0)
      ∧ build false goBuild ExecOutcome.startFailure "no such file"
          = (false, [msgRunningBuild, msgBuildErr "no such file"])
      ∧ (builderRun alwaysOk builderInitThreshold builderInitPath []).map timePath
          = (builderRun alwaysBad builderInitThreshold builderInitPath []).map timePath) :=
  ⟨by decide,
    build_success_iff (ExecOutcome.exited 2) ExecOutcome.startFailure "o" "no such file"
      alwaysOk alwaysBad builderInitThreshold builderInitPath [] (by decide)⟩

/-- Claim C3, counterexample: hard termination of a handle whose process has
already been terminated and reaped is fatal, not idempotent: `Kill` fails
only with a warning, but the second `Wait` fails as well and
`killProcessHard` then aborts the daemon via `log.Fatal` (second component
true). -/
theorem killProcessHard_reaped_cex :
    killProcessHard ProcStatus.reaped = (ProcStatus.reaped, true) := rfl

/-- Claim C3, amended: hard termination is safe on a process that is still
running and on one that has already exited but was not yet waited for (the
kill failure is at most a logged warning and the wait reaps the process
without error); only on a handle that was already reaped does the wait fail
and the daemon abort fatally. -/
theorem killProcessHard_not_reaped_safe :
    killProcessHard ProcStatus.running = (ProcStatus.reaped, false)
    ∧ killProcessHard ProcStatus.exited = (ProcStatus.reaped, false)
    ∧ killProcessHard ProcStatus.reaped = (ProcStatus.reaped, true) :=
  ⟨rfl, rfl, rfl⟩

/-- Claim C6: with a positive timeout, if the running child does not exit
within the graceful timeout after SIGTERM (it never exits by itself, or
exits no earlier than the timeout), the termination escalates to the hard
kill, which still awaits exit confirmation and completes without a fatal
abort; if instead the graceful wait completes first with a non-nil error
(the handle was already reaped, so SIGTERM itself fails), the daemon
aborts fatally. -/
theorem graceful_timeout_escalates (timeout : Nat) (r : Option Nat)
    (hpos : 0 < timeout) (hlate : ∀ t, r = some t → timeout ≤ t) :
    killProcessGracefully timeout ProcStatus.running r = GracefulOutcome.escalatedOk
    ∧ killProcessGracefully timeout ProcStatus.reaped r = GracefulOutcome.fatalAbort := by
  constructor
  · cases r with
    | none =>
        simp [killProcessGracefully, gracefulDone, terminateGracefully,
          killProcessHard, procKill, procWait]
    | some t =>
        have ht := hlate t rfl
        have hnlt : ¬ t < timeout := by omega
        simp [killProcessGracefully, gracefulDone, terminateGracefully,
          killProcessHard, procKill, procWait, hnlt]
  · simp [killProcessGracefully, gracefulDone, terminateGracefully, hpos]

/-- Witness for C6, at the default three-second timeout and a child that
ignores SIGTERM. -/
theorem graceful_timeout_escalates_witness :
    (0 < defaultGracefulTimeout)
    ∧ (killProcessGracefully defaultGracefulTimeout ProcStatus.running none
        = GracefulOutcome.escalatedOk
      ∧ killProcessGracefully defaultGracefulTimeout ProcStatus.reaped none
        = GracefulOutcome.fatalAbort) :=
  ⟨by decide,
    graceful_timeout_escalates defaultGracefulTimeout none (by decide)
      (fun t h => Option.noConfusion h)⟩

/-! ### Lemmas and claim theorems: process supervisor -/

/-- Invariant of the runner loop: starting from any state, the emitted
history never contains a second process start before the termination of the
pending started process has been confirmed by a kill-and-wait. -/
theorem runnerRun_sep (cs : Bool) :
    ∀ (l : List CycleInput) (s : RunnerState),
      startsSeparated (pendingOf s) (runnerRun cs s l) = true := by
  intro l
  induction l with
  | nil => intro s; simp [runnerRun, startsSeparated]
  | cons c rest ih =>
      intro s
      obtain ⟨cur, np⟩ := s
      obtain ⟨ep, succ, serr⟩ := c
      cases cur with
      | none =>
          cases cs <;> cases succ <;> cases serr <;>
            simp [runnerRun, runnerCycle, runnerRestart, killProcessHard, procKill,
              procWait, pendingOf, startsSeparated] <;>
            first
              | rfl
              | simpa [pendingOf] using ih ⟨none, np⟩
              | simpa [pendingOf] using ih ⟨some ⟨np, ProcStatus.running⟩, np + 1⟩
      | some h =>
          obtain ⟨pid, st⟩ := h
          cases st <;> cases cs <;> cases succ <;> cases serr <;>
            simp [runnerRun, runnerCycle, runnerRestart, killProcessHard, procKill,
              procWait, pendingOf, startsSeparated] <;>
            first
              | rfl
              | simpa [pendingOf] using ih ⟨some ⟨pid, ProcStatus.running⟩, np⟩
              | simpa [pendingOf] using ih ⟨some ⟨pid, ProcStatus.exited⟩, np⟩
              | simpa [pendingOf] using ih ⟨some ⟨pid, ProcStatus.reaped⟩, np⟩
              | simpa [pendingOf] using ih ⟨some ⟨np, ProcStatus.running⟩, np + 1⟩

/-- Claim C1: in every run of the runner loop from its initial state, under
either stop mode, the event history never shows two process starts without
an intervening confirmed termination (kill followed by a successful wait)
of the previously started process. -/
theorem runner_single_process (cs : Bool) (l : List CycleInput) :
    startsSeparated none (runnerRun cs runnerInit l) = true :=
  runnerRun_sep cs l runnerInit

/-- Claim C4: in stop-after-build mode (the default), a build cycle whose
build failed leaves the runner state untouched, emits no event (no signal,
no wait, no start) and does not abort: the iteration is a pure no-op and
the runner waits for the next cycle. -/
theorem stop_after_failed_untouched (s : RunnerState) (c : CycleInput)
    (hfail : c.success = false) :
    runnerCycle false s c = (s, [], false) := by
  simp [runnerCycle, hfail]

/-- Witness for C4 with a running child process and a failed build. -/
theorem stop_after_failed_untouched_witness :
    ((⟨"x.go", false, false⟩ : CycleInput).success = false)
    ∧ runnerCycle false ⟨some ⟨5, ProcStatus.running⟩, 6⟩ ⟨"x.go", false, false⟩
        = (⟨some ⟨5, ProcStatus.running⟩, 6⟩, [], false) :=
  ⟨rfl,
    stop_after_failed_untouched ⟨some ⟨5, ProcStatus.running⟩, 6⟩ ⟨"x.go", false, false⟩ rfl⟩

/-- Claim C5, counterexample: in stop-before-build mode, after a successful
start, a failed build kills the child, and the next build cycle, even a
successful one, does not start a new process: the runner still holds the
stale reaped handle, the redundant kill fails its wait, and the daemon
aborts fatally. -/
theorem stop_before_stale_handle_cex :
    runnerRun true runnerInit
        [⟨"a.go", true, false⟩, ⟨"b.go", false, false⟩, ⟨"c.go", true, false⟩]
      = [RunnerEvent.started 0, RunnerEvent.killWaited 0, RunnerEvent.fatalStop] := rfl

/-- Claim C5, amended: in stop-before-build mode, with a running child, the
runner confirms termination of the child first in every iteration,
independent of the eventual build outcome; on a failed build it starts no
new process and no child is left running; but the stale handle is retained,
so the following build cycle aborts the daemon fatally instead of starting
a new process on the next successful build. -/
theorem stop_before_kill_first (s : RunnerState) (c cf c2 : CycleInput) (h : ProcHandle)
    (hcur : s.current = some h) (hrun : h.status = ProcStatus.running)
    (hfail : cf.success = false) :
    (runnerCycle true s c).2.1.head? = some (RunnerEvent.killWaited h.pid)
    ∧ runnerCycle true s cf
        = (⟨some ⟨h.pid, ProcStatus.reaped⟩, s.nextPid⟩, [RunnerEvent.killWaited h.pid], false)
    ∧ runnerCycle true ⟨some ⟨h.pid, ProcStatus.reaped⟩, s.nextPid⟩ c2
        = (⟨some ⟨h.pid, ProcStatus.reaped⟩, s.nextPid⟩, [RunnerEvent.fatalStop], true) := by
  refine ⟨?_, ?_, ?_⟩
  · cases hsucc : c.success <;> cases herr : c.startErr <;>
      simp [runnerCycle, runnerRestart, hcur, hrun, hsucc, herr, killProcessHard,
        procKill, procWait]
  · simp [runnerCycle, runnerRestart, hcur, hrun, hfail, killProcessHard,
      procKill, procWait]
  · simp [runnerCycle, runnerRestart, killProcessHard, procKill, procWait]

/-- Witness for C5: concrete cycles on a freshly started process with pid 0. -/
theorem stop_before_kill_first_witness :
    ((⟨some ⟨0, ProcStatus.running⟩, 1⟩ : RunnerState).current = some ⟨0, ProcStatus.running⟩
      ∧ (⟨0, ProcStatus.running⟩ : ProcHandle).status = ProcStatus.running
      ∧ (⟨"b.go", false, false⟩ : CycleInput).success = false)
    ∧ ((runnerCycle true ⟨some ⟨0, ProcStatus.running⟩, 1⟩ ⟨"a.go", true, false⟩).2.1.head?
          = some (RunnerEvent.killWaited 0)
      ∧ runnerCycle true ⟨some ⟨0, ProcStatus.running⟩, 1⟩ ⟨"b.go", false, false⟩
          = (⟨some ⟨0, ProcStatus.reaped⟩, 1⟩, [RunnerEvent.killWaited 0], false)
      ∧ runnerCycle true ⟨some ⟨0, ProcStatus.reaped⟩, 1⟩ ⟨"c.go", true, false⟩
          = (⟨some ⟨0, ProcStatus.reaped⟩, 1⟩, [RunnerEvent.fatalStop], true)) :=
  ⟨⟨rfl, rfl, rfl⟩,
    stop_before_kill_first ⟨some ⟨0, ProcStatus.running⟩, 1⟩ ⟨"a.go", true, false⟩
      ⟨"b.go", false, false⟩ ⟨"c.go", true, false⟩ ⟨0, ProcStatus.running⟩ rfl rfl rfl⟩

/-! ### Claim theorems: startup checks -/

/-- Claim C9: with a non-empty watch directory, requesting graceful kill is
fatal at startup exactly on platforms without graceful termination support;
the capability query returns false exactly on Windows and true on POSIX;
and without the graceful-kill request startup proceeds into the run loop. -/
theorem graceful_unsupported_startup_fatal (plat : Platform) (dir : String)
    (hdir : dir ≠ "") :
    (mainStartup plat dir true = StartupResult.fatalExit
      ↔ gracefulTerminationPossible plat = false)
    ∧ (gracefulTerminationPossible plat = false ↔ plat = Platform.windows)
    ∧ mainStartup plat dir false = StartupResult.enterRunLoop := by
  cases plat with
  | posix => simp [mainStartup, gracefulTerminationPossible, hdir]
  | windows => simp [mainStartup, gracefulTerminationPossible, hdir]

/-- Witness for C9 on Windows with the default watch directory. -/
theorem graceful_unsupported_startup_fatal_witness :
    (("." : String) ≠ "")
    ∧ ((mainStartup Platform.windows "." true = StartupResult.fatalExit
          ↔ gracefulTerminationPossible Platform.windows = false)
      ∧ (gracefulTerminationPossible Platform.windows = false
          ↔ Platform.windows = Platform.windows)
      ∧ mainStartup Platform.windows "." false = StartupResult.enterRunLoop) :=
  ⟨by decide, graceful_unsupported_startup_fatal Platform.windows "." (by decide)⟩

end CompileDaemon
